import Mathlib

/-!
# Verification of the github-feed poll/pacing/pagination engine

Shallow embedding of the two variants of the event-feed library:
- namespace `Plain`  : the variant without HTTP-cache awareness.
- namespace `Cached` : the variant whose transport marks cached responses
  and whose poll loop stops on a cached page.

Go `time.Duration` is modelled as `Int` nanoseconds, timestamps as `Int`
nanoseconds since an epoch, so `time.Until t = t - now`.  The external
`client.Activity.ListEvents` call is modelled as a function
`fetch : Nat → FetchResult` from the requested page cursor to the triple
(batch, response, err) it returns; events are opaque and modelled as `Nat`.
The poll loop, which the Go source writes with an indexed `for` loop and
`break`s, is written as structural recursion on the remaining iteration
count; it is instrumented with the number of fetch calls issued and with
the cause that ended the pagination loop, both of which are invisible to
the Go caller but needed to state the spec's claims.
-/

/-- The poll-interval header name consulted by the poll loop
(`xPollIntervalHeader` in the source). -/
def xPollIntervalHeader : String := "X-Poll-Interval"

/-- `defaultPollSeconds` from the source. -/
def defaultPollSeconds : Int := 60

/-- `defaultFeedCapacity` from the source (capacity of the events channel). -/
def defaultFeedCapacity : Nat := 16

/-- `maximumEventsPages` from the source: the page ceiling per poll cycle. -/
def maximumEventsPages : Nat := 10

/-- `maximumEventsPerPage` from the source. -/
def maximumEventsPerPage : Nat := 30

/-- `maximumEventsPerPoll = maximumEventsPerPage * maximumEventsPages`
from the source. -/
def maximumEventsPerPoll : Nat := maximumEventsPerPage * maximumEventsPages

/-- Go `time.Second` in nanoseconds (durations are `Int` nanoseconds). -/
def timeSecond : Int := 1000000000

/-- Events are opaque to the poll loop; an event is modelled as a `Nat`. -/
abbrev Event := Nat

/-- The slice of `http.Response` the poll loop consults: the value of the
`X-Poll-Interval` header (`none` when the header is absent; Go's
`Header.Get` returns `""` in that case) and whether the transport put the
`httpcache.XFromCache` key in the header map. -/
structure HTTPResponse where
  pollIntervalHeaderValue : Option String
  fromCacheHeaderPresent : Bool
deriving DecidableEq

/-- Go `http.Header.Get`: the header's value, `""` when absent. -/
def headerGet (v : Option String) : String := v.getD ""

/-- Rate-limit metadata: `Rate.Reset.Time` as `Int` nanoseconds. -/
structure Rate where
  reset : Int
deriving DecidableEq

/-- The slice of `github.Response` the poll loop consults. -/
structure GithubResponse where
  response : HTTPResponse
  rate : Rate
  nextPage : Nat
deriving DecidableEq

/-- Error returned by a fetch: `*github.RateLimitError` carrying its
`Rate`, or any other error (tagged by a `Nat` so distinct errors exist). -/
inductive GHError where
  | rateLimitError (rate : Rate)
  | other (tag : Nat)
deriving DecidableEq

/-- The triple returned by one `client.Activity.ListEvents` call. -/
structure FetchResult where
  batch : List Event
  response : GithubResponse
  err : Option GHError
deriving DecidableEq

/-- All-digit decimal accumulation; `none` on the first non-digit. -/
def digitsVal : List Char → Nat → Option Nat
  | [], acc => some acc
  | c :: rest, acc =>
      if c.isDigit then digitsVal rest (acc * 10 + (c.toNat - 48)) else none

/-- A non-empty all-digit string's value, else `none`. -/
def parseDigits : List Char → Option Nat
  | [] => none
  | cs => digitsVal cs 0

/-- Go `strconv.Atoi`: optional sign, at least one digit, all digits,
value within the 64-bit signed range; `none` models a non-nil error. -/
def atoi (s : String) : Option Int :=
  let core : Option Int :=
    match s.toList with
    | '+' :: rest => (parseDigits rest).map (fun n => (n : Int))
    | '-' :: rest => (parseDigits rest).map (fun n => -(n : Int))
    | cs => (parseDigits cs).map (fun n => (n : Int))
  core.bind (fun n =>
    if -(2 ^ 63) ≤ n ∧ n ≤ 2 ^ 63 - 1 then some n else none)

/-- `pollIntervalFromResponse` (identical in both source variants): the
server-hinted poll interval, defaulting to `defaultPollSeconds` seconds
when the header is absent, empty or unparsable. -/
def pollIntervalFromResponse (r : HTTPResponse) : Int :=
  let default_duration : Int := defaultPollSeconds * timeSecond
  let poll_header := headerGet r.pollIntervalHeaderValue
  if poll_header = "" then default_duration
  else
    match atoi poll_header with
    | none => default_duration
    | some poll_seconds => poll_seconds * timeSecond

/-- `isCachedResponse` (cache-aware variant): presence of the
`httpcache.XFromCache` header key. -/
def isCachedResponse (r : HTTPResponse) : Bool := r.fromCacheHeaderPresent

/-- Why the pagination loop of `poll` ended (instrumentation; the Go code
reaches these as, respectively: `err != nil` break, `throttled` break,
cached-response break, `NextPage == 0` break, loop counter exhaustion). -/
inductive ExitCause where
  | fatal
  | throttled
  | cachedHit
  | sentinel
  | ceiling
deriving DecidableEq

/-- The result of one `poll()` call: the triple the Go function returns
plus the instrumented fetch-call count and loop exit cause. -/
structure PollResult where
  events : List Event
  poll_interval : Int
  err : Option GHError
  fetchCalls : Nat
  cause : ExitCause
deriving DecidableEq

/-- `chainFrom fetch page j`: the page cursor reached after following
`j` next-cursor links starting at `page`. -/
def chainFrom (fetch : Nat → FetchResult) : Nat → Nat → Nat
  | page, 0 => page
  | page, j + 1 => chainFrom fetch ((fetch page).response.nextPage) j

/-- `batchesFrom fetch page m`: the concatenation, in page order, of the
batches of the `m` pages starting at `page` along the next-cursor chain. -/
def batchesFrom (fetch : Nat → FetchResult) : Nat → Nat → List Event
  | _, 0 => []
  | page, m + 1 =>
      (fetch page).batch ++ batchesFrom fetch ((fetch page).response.nextPage) m

/-- The poll interval held by the loop after `m` successful iterations
starting at `page`, when it was `pi0` before them. -/
def intervalAfter (fetch : Nat → FetchResult) : Nat → Int → Nat → Int
  | _, pi0, 0 => pi0
  | page, _, m + 1 =>
      intervalAfter fetch ((fetch page).response.nextPage)
        (pollIntervalFromResponse (fetch page).response.response) m

namespace Plain

/-- `pollIntervalOrPropagateError` of the plain variant: a rate-limit
error becomes a throttle decision whose interval is `time.Until` of the
error's own `Rate.Reset.Time`; any other error propagates; on success the
interval comes from the response header. -/
def pollIntervalOrPropagateError (r : GithubResponse) (err : Option GHError)
    (now : Int) : Int × Bool × Option GHError :=
  match err with
  | some (GHError.rateLimitError rate) => (rate.reset - now, true, none)
  | some e => (-1, false, some e)
  | none => (pollIntervalFromResponse r.response, false, none)

/-- The pagination loop of `poll` (plain variant), recursing on the
remaining iteration budget; arguments after the budget are `opts.Page`,
the accumulated `events`, the current `poll_interval`, and the number of
fetch calls issued so far (the loop counter `i` of the source). -/
def pollAux (fetch : Nat → FetchResult) (now : Int) :
    Nat → Nat → List Event → Int → Nat → PollResult
  | 0, _, events, poll_interval, calls =>
      { events := events, poll_interval := poll_interval, err := none,
        fetchCalls := calls, cause := ExitCause.ceiling }
  | fuel + 1, page, events, _, calls =>
      let fr := fetch page
      let dec := pollIntervalOrPropagateError fr.response fr.err now
      let poll_interval := dec.1
      let throttled := dec.2.1
      let err := dec.2.2
      if err.isSome then
        { events := events, poll_interval := poll_interval, err := err,
          fetchCalls := calls + 1, cause := ExitCause.fatal }
      else if throttled then
        { events := events, poll_interval := poll_interval, err := none,
          fetchCalls := calls + 1, cause := ExitCause.throttled }
      else
        let events := events ++ fr.batch
        if fr.response.nextPage = 0 then
          { events := events, poll_interval := poll_interval, err := none,
            fetchCalls := calls + 1, cause := ExitCause.sentinel }
        else
          pollAux fetch now fuel fr.response.nextPage events poll_interval (calls + 1)

/-- `poll` (plain variant): cursor starts at page 1, events empty,
interval `time.Duration(-1)`, at most `maximumEventsPages` iterations. -/
def poll (fetch : Nat → FetchResult) (now : Int) : PollResult :=
  pollAux fetch now maximumEventsPages 1 [] (-1) 0

end Plain

namespace Cached

/-- `pollIntervalOrPropagateError` of the cache-aware variant: identical
to the plain one except that the throttle interval is `time.Until` of the
*response's* `Rate.Reset.Time`. -/
def pollIntervalOrPropagateError (r : GithubResponse) (err : Option GHError)
    (now : Int) : Int × Bool × Option GHError :=
  match err with
  | some (GHError.rateLimitError _) => (r.rate.reset - now, true, none)
  | some e => (-1, false, some e)
  | none => (pollIntervalFromResponse r.response, false, none)

/-- The pagination loop of `poll` (cache-aware variant): as the plain one
but breaking, before accumulating, on a response served from the cache. -/
def pollAux (fetch : Nat → FetchResult) (now : Int) :
    Nat → Nat → List Event → Int → Nat → PollResult
  | 0, _, events, poll_interval, calls =>
      { events := events, poll_interval := poll_interval, err := none,
        fetchCalls := calls, cause := ExitCause.ceiling }
  | fuel + 1, page, events, _, calls =>
      let fr := fetch page
      let dec := pollIntervalOrPropagateError fr.response fr.err now
      let poll_interval := dec.1
      let throttled := dec.2.1
      let err := dec.2.2
      if err.isSome then
        { events := events, poll_interval := poll_interval, err := err,
          fetchCalls := calls + 1, cause := ExitCause.fatal }
      else if throttled then
        { events := events, poll_interval := poll_interval, err := none,
          fetchCalls := calls + 1, cause := ExitCause.throttled }
      else if isCachedResponse fr.response.response then
        { events := events, poll_interval := poll_interval, err := none,
          fetchCalls := calls + 1, cause := ExitCause.cachedHit }
      else
        let events := events ++ fr.batch
        if fr.response.nextPage = 0 then
          { events := events, poll_interval := poll_interval, err := none,
            fetchCalls := calls + 1, cause := ExitCause.sentinel }
        else
          pollAux fetch now fuel fr.response.nextPage events poll_interval (calls + 1)

/-- `poll` (cache-aware variant). -/
def poll (fetch : Nat → FetchResult) (now : Int) : PollResult :=
  pollAux fetch now maximumEventsPages 1 [] (-1) 0

end Cached

/-- How a terminated `Serve` ended: a real error from `poll`, or the
context's cancellation observed in the `select`. -/
inductive ServeOutcome where
  | fatal (e : GHError)
  | cancelled
deriving DecidableEq

/-- Observable result of running `Serve` for at most `fuel` cycles: the
batches sent on the events channel, how many times the channel was closed
(the `defer close(f.events)` runs exactly when `Serve` returns), and the
outcome (`none` while the loop is still running). -/
structure ServeResult where
  emitted : List (List Event)
  closeCount : Nat
  outcome : Option ServeOutcome
deriving DecidableEq

/-- `Serve` (identical in both source variants), modelled over a
cycle-indexed oracle: `pollAt n` is what the `n`-th `f.poll()` call
returns, and `ctxDone n` tells whether, at the `n`-th sleep, the
context's cancellation wins the `select` race against the timer.  The
recursion is on a cycle budget `fuel`; exhausting it means the loop is
still running (so the deferred close has not run). -/
def Serve (pollAt : Nat → List Event × Int × Option GHError)
    (ctxDone : Nat → Bool) : Nat → Nat → List (List Event) → ServeResult
  | 0, _, emitted => { emitted := emitted, closeCount := 0, outcome := none }
  | fuel + 1, cycle, emitted =>
      match pollAt cycle with
      | (_, _, some e) =>
          { emitted := emitted, closeCount := 1,
            outcome := some (ServeOutcome.fatal e) }
      | (events, _, none) =>
          let emitted := emitted ++ [events]
          if ctxDone cycle then
            { emitted := emitted, closeCount := 1,
              outcome := some ServeOutcome.cancelled }
          else
            Serve pollAt ctxDone fuel (cycle + 1) emitted

/-- Worked example oracle: pages 1, 2, 3 chained by next cursor with the
sentinel after page 3; every fetch succeeds, nothing is cached. -/
def exFetchChain : Nat → FetchResult := fun p =>
  { batch := [10 * p, 10 * p + 1],
    response :=
      { response := { pollIntervalHeaderValue := some "45", fromCacheHeaderPresent := false },
        rate := { reset := 0 },
        nextPage := if p < 3 then p + 1 else 0 },
    err := none }

/-- Worked example oracle: an endless next-cursor chain that never errs
and is never cached. -/
def exFetchEndless : Nat → FetchResult := fun p =>
  { batch := [p],
    response :=
      { response := { pollIntervalHeaderValue := none, fromCacheHeaderPresent := false },
        rate := { reset := 0 }, nextPage := p + 1 },
    err := none }

/-- Worked example oracle: every fetch returns a rate-limit error whose
reset time is the epoch (0 nanoseconds). -/
def exFetchRateLimited : Nat → FetchResult := fun _ =>
  { batch := [7],
    response :=
      { response := { pollIntervalHeaderValue := none, fromCacheHeaderPresent := false },
        rate := { reset := 0 }, nextPage := 0 },
    err := some (GHError.rateLimitError { reset := 0 }) }

/-- Worked example oracle: page 1 is served fresh, page 2 is served from
the HTTP cache (and hints a 45 second delay). -/
def exFetchCachedAt2 : Nat → FetchResult := fun p =>
  if p = 2 then
    { batch := [99],
      response :=
        { response := { pollIntervalHeaderValue := some "45", fromCacheHeaderPresent := true },
          rate := { reset := 0 }, nextPage := 3 },
      err := none }
  else
    { batch := [p],
      response :=
        { response := { pollIntervalHeaderValue := none, fromCacheHeaderPresent := false },
          rate := { reset := 0 }, nextPage := p + 1 },
      err := none }

/-- Worked example response whose poll-delay header holds "-5". -/
def respNeg : HTTPResponse :=
  { pollIntervalHeaderValue := some "-5", fromCacheHeaderPresent := false }

/-!
## Step lemmas for the pagination loop

`chainFrom`, `batchesFrom` and `intervalAfter` describe the cursor chain
a fetch oracle induces; the step lemmas below run the loop across `m`
successful, non-terminal iterations at once.
-/

lemma chainFrom_zero (fetch : Nat → FetchResult) (page : Nat) :
    chainFrom fetch page 0 = page := rfl

lemma chainFrom_succ (fetch : Nat → FetchResult) (page j : Nat) :
    chainFrom fetch page (j + 1) =
      chainFrom fetch ((fetch page).response.nextPage) j := rfl

lemma chainFrom_succ_last (fetch : Nat → FetchResult) :
    ∀ (j : Nat) (page : Nat),
      chainFrom fetch page (j + 1) =
        (fetch (chainFrom fetch page j)).response.nextPage := by
  intro j
  induction j with
  | zero => intro page; rfl
  | succ j ih =>
      intro page
      rw [chainFrom_succ, ih, chainFrom_succ]

lemma batchesFrom_succ_last (fetch : Nat → FetchResult) :
    ∀ (m : Nat) (page : Nat),
      batchesFrom fetch page (m + 1) =
        batchesFrom fetch page m ++ (fetch (chainFrom fetch page m)).batch := by
  intro m
  induction m with
  | zero => intro page; simp [batchesFrom, chainFrom]
  | succ m ih =>
      intro page
      rw [show batchesFrom fetch page (m + 1 + 1) =
            (fetch page).batch ++
              batchesFrom fetch ((fetch page).response.nextPage) (m + 1) from rfl,
          ih, show batchesFrom fetch page (m + 1) =
            (fetch page).batch ++
              batchesFrom fetch ((fetch page).response.nextPage) m from rfl,
          List.append_assoc, chainFrom_succ]

namespace Plain

/-- Running the plain pagination loop across `m` iterations that all
succeed (no error) and are non-terminal (non-sentinel next cursor). -/
lemma pollAux_steps (fetch : Nat → FetchResult) (now : Int) :
    ∀ (m fuel page : Nat) (acc : List Event) (pi0 : Int) (calls : Nat),
      m ≤ fuel →
      (∀ j, j < m → (fetch (chainFrom fetch page j)).err = none) →
      (∀ j, j < m → (fetch (chainFrom fetch page j)).response.nextPage ≠ 0) →
      pollAux fetch now fuel page acc pi0 calls =
        pollAux fetch now (fuel - m) (chainFrom fetch page m)
          (acc ++ batchesFrom fetch page m)
          (intervalAfter fetch page pi0 m) (calls + m) := by
  intro m
  induction m with
  | zero =>
      intro fuel page acc pi0 calls _ _ _
      simp [chainFrom, batchesFrom, intervalAfter]
  | succ m ih =>
      intro fuel page acc pi0 calls hm hok hnext
      cases fuel with
      | zero => omega
      | succ f =>
          have h0 : (fetch page).err = none := hok 0 (Nat.succ_pos m)
          have hn0 : (fetch page).response.nextPage ≠ 0 := hnext 0 (Nat.succ_pos m)
          have hstep : pollAux fetch now (f + 1) page acc pi0 calls =
              pollAux fetch now f ((fetch page).response.nextPage)
                (acc ++ (fetch page).batch)
                (pollIntervalFromResponse (fetch page).response.response)
                (calls + 1) := by
            simp [pollAux, pollIntervalOrPropagateError, h0, hn0]
          rw [hstep, ih f ((fetch page).response.nextPage)
                (acc ++ (fetch page).batch)
                (pollIntervalFromResponse (fetch page).response.response)
                (calls + 1) (by omega)
                (fun j hj => hok (j + 1) (by omega))
                (fun j hj => hnext (j + 1) (by omega))]
          rw [show batchesFrom fetch page (m + 1) =
                (fetch page).batch ++
                  batchesFrom fetch ((fetch page).response.nextPage) m from rfl]
          rw [← List.append_assoc]
          rw [show intervalAfter fetch page pi0 (m + 1) =
                intervalAfter fetch ((fetch page).response.nextPage)
                  (pollIntervalFromResponse (fetch page).response.response) m from rfl]
          rw [show chainFrom fetch page (m + 1) =
                chainFrom fetch ((fetch page).response.nextPage) m from rfl]
          rw [show f + 1 - (m + 1) = f - m by omega,
              show calls + (m + 1) = calls + 1 + m by omega]

/-- In the plain loop, the number of fetch calls grows by at most the
remaining iteration budget. -/
lemma pollAux_calls_le (fetch : Nat → FetchResult) (now : Int) :
    ∀ (fuel page : Nat) (acc : List Event) (pi0 : Int) (calls : Nat),
      (pollAux fetch now fuel page acc pi0 calls).fetchCalls ≤ calls + fuel := by
  intro fuel
  induction fuel with
  | zero => intro page acc pi0 calls; simp [pollAux]
  | succ f ih =>
      intro page acc pi0 calls
      by_cases he : ((pollIntervalOrPropagateError (fetch page).response
          (fetch page).err now).2.2).isSome
      · simp [pollAux, he]
      · by_cases ht : (pollIntervalOrPropagateError (fetch page).response
            (fetch page).err now).2.1
        · simp [pollAux, he, ht]
        · by_cases hz : (fetch page).response.nextPage = 0
          · simp [pollAux, he, ht, hz]
          · have := ih ((fetch page).response.nextPage)
              (acc ++ (fetch page).batch)
              ((pollIntervalOrPropagateError (fetch page).response
                (fetch page).err now).1) (calls + 1)
            simp only [pollAux, he, ht, hz]
            simp only [Bool.false_eq_true, if_false, if_neg hz]
            omega

/-- In the plain loop, the batch grows by at most
`maximumEventsPerPage` events per remaining iteration, provided every
page the oracle can serve holds at most `maximumEventsPerPage` events. -/
lemma pollAux_length_le (fetch : Nat → FetchResult) (now : Int)
    (hpage : ∀ p, (fetch p).batch.length ≤ maximumEventsPerPage) :
    ∀ (fuel page : Nat) (acc : List Event) (pi0 : Int) (calls : Nat),
      (pollAux fetch now fuel page acc pi0 calls).events.length ≤
        acc.length + fuel * maximumEventsPerPage := by
  intro fuel
  induction fuel with
  | zero => intro page acc pi0 calls; simp [pollAux]
  | succ f ih =>
      intro page acc pi0 calls
      have hb : (fetch page).batch.length ≤ 30 := hpage page
      by_cases he : ((pollIntervalOrPropagateError (fetch page).response
          (fetch page).err now).2.2).isSome
      · simp [pollAux, he]
      · by_cases ht : (pollIntervalOrPropagateError (fetch page).response
            (fetch page).err now).2.1
        · simp [pollAux, he, ht]
        · by_cases hz : (fetch page).response.nextPage = 0
          · simp [pollAux, he, ht, hz, maximumEventsPerPage]
            omega
          · have := ih ((fetch page).response.nextPage)
              (acc ++ (fetch page).batch)
              ((pollIntervalOrPropagateError (fetch page).response
                (fetch page).err now).1) (calls + 1)
            simp only [pollAux, he, ht, hz]
            simp only [Bool.false_eq_true, if_false, if_neg hz]
            simp only [List.length_append, maximumEventsPerPage] at this ⊢
            omega

/-- In the plain loop, the returned error is non-`none` exactly when the
loop exited through the fatal branch. -/
lemma pollAux_err_iff_fatal (fetch : Nat → FetchResult) (now : Int) :
    ∀ (fuel page : Nat) (acc : List Event) (pi0 : Int) (calls : Nat),
      ((pollAux fetch now fuel page acc pi0 calls).err.isSome = true ↔
        (pollAux fetch now fuel page acc pi0 calls).cause = ExitCause.fatal) := by
  intro fuel
  induction fuel with
  | zero => intro page acc pi0 calls; simp [pollAux]
  | succ f ih =>
      intro page acc pi0 calls
      by_cases he : ((pollIntervalOrPropagateError (fetch page).response
          (fetch page).err now).2.2).isSome
      · simp [pollAux, he]
      · by_cases ht : (pollIntervalOrPropagateError (fetch page).response
            (fetch page).err now).2.1
        · simp [pollAux, he, ht]
        · by_cases hz : (fetch page).response.nextPage = 0
          · simp [pollAux, he, ht, hz]
          · simp only [pollAux, he, ht, hz]
            simp only [Bool.false_eq_true, if_false, if_neg hz]
            exact ih _ _ _ _

/-- In the plain loop, the exit cause is one of the four causes the loop
can actually take (never the cache-hit cause of the other variant). -/
lemma pollAux_cause_cases (fetch : Nat → FetchResult) (now : Int) :
    ∀ (fuel page : Nat) (acc : List Event) (pi0 : Int) (calls : Nat),
      (pollAux fetch now fuel page acc pi0 calls).cause = ExitCause.sentinel ∨
      (pollAux fetch now fuel page acc pi0 calls).cause = ExitCause.throttled ∨
      (pollAux fetch now fuel page acc pi0 calls).cause = ExitCause.fatal ∨
      (pollAux fetch now fuel page acc pi0 calls).cause = ExitCause.ceiling := by
  intro fuel
  induction fuel with
  | zero => intro page acc pi0 calls; simp [pollAux]
  | succ f ih =>
      intro page acc pi0 calls
      by_cases he : ((pollIntervalOrPropagateError (fetch page).response
          (fetch page).err now).2.2).isSome
      · simp [pollAux, he]
      · by_cases ht : (pollIntervalOrPropagateError (fetch page).response
            (fetch page).err now).2.1
        · simp [pollAux, he, ht]
        · by_cases hz : (fetch page).response.nextPage = 0
          · simp [pollAux, he, ht, hz]
          · simp only [pollAux, he, ht, hz]
            simp only [Bool.false_eq_true, if_false, if_neg hz]
            exact ih _ _ _ _

end Plain

namespace Cached

/-- Running the cache-aware pagination loop across `m` iterations that
all succeed (no error), are served fresh (not from the cache) and are
non-terminal (non-sentinel next cursor). -/
lemma pollAux_steps_cached (fetch : Nat → FetchResult) (now : Int) :
    ∀ (m fuel page : Nat) (acc : List Event) (pi0 : Int) (calls : Nat),
      m ≤ fuel →
      (∀ j, j < m → (fetch (chainFrom fetch page j)).err = none) →
      (∀ j, j < m →
        isCachedResponse (fetch (chainFrom fetch page j)).response.response = false) →
      (∀ j, j < m → (fetch (chainFrom fetch page j)).response.nextPage ≠ 0) →
      pollAux fetch now fuel page acc pi0 calls =
        pollAux fetch now (fuel - m) (chainFrom fetch page m)
          (acc ++ batchesFrom fetch page m)
          (intervalAfter fetch page pi0 m) (calls + m) := by
  intro m
  induction m with
  | zero =>
      intro fuel page acc pi0 calls _ _ _ _
      simp [chainFrom, batchesFrom, intervalAfter]
  | succ m ih =>
      intro fuel page acc pi0 calls hm hok hcache hnext
      cases fuel with
      | zero => omega
      | succ f =>
          have h0 : (fetch page).err = none := hok 0 (Nat.succ_pos m)
          have hc0 : isCachedResponse (fetch page).response.response = false :=
            hcache 0 (Nat.succ_pos m)
          have hn0 : (fetch page).response.nextPage ≠ 0 := hnext 0 (Nat.succ_pos m)
          have hstep : pollAux fetch now (f + 1) page acc pi0 calls =
              pollAux fetch now f ((fetch page).response.nextPage)
                (acc ++ (fetch page).batch)
                (pollIntervalFromResponse (fetch page).response.response)
                (calls + 1) := by
            simp [pollAux, pollIntervalOrPropagateError, h0, hc0, hn0]
          rw [hstep, ih f ((fetch page).response.nextPage)
                (acc ++ (fetch page).batch)
                (pollIntervalFromResponse (fetch page).response.response)
                (calls + 1) (by omega)
                (fun j hj => hok (j + 1) (by omega))
                (fun j hj => hcache (j + 1) (by omega))
                (fun j hj => hnext (j + 1) (by omega))]
          rw [show batchesFrom fetch page (m + 1) =
                (fetch page).batch ++
                  batchesFrom fetch ((fetch page).response.nextPage) m from rfl]
          rw [← List.append_assoc]
          rw [show intervalAfter fetch page pi0 (m + 1) =
                intervalAfter fetch ((fetch page).response.nextPage)
                  (pollIntervalFromResponse (fetch page).response.response) m from rfl]
          rw [show chainFrom fetch page (m + 1) =
                chainFrom fetch ((fetch page).response.nextPage) m from rfl]
          rw [show f + 1 - (m + 1) = f - m by omega,
              show calls + (m + 1) = calls + 1 + m by omega]

/-- In the cache-aware loop, the number of fetch calls grows by at most
the remaining iteration budget. -/
lemma pollAux_calls_le_cached (fetch : Nat → FetchResult) (now : Int) :
    ∀ (fuel page : Nat) (acc : List Event) (pi0 : Int) (calls : Nat),
      (pollAux fetch now fuel page acc pi0 calls).fetchCalls ≤ calls + fuel := by
  intro fuel
  induction fuel with
  | zero => intro page acc pi0 calls; simp [pollAux]
  | succ f ih =>
      intro page acc pi0 calls
      by_cases he : ((pollIntervalOrPropagateError (fetch page).response
          (fetch page).err now).2.2).isSome
      · simp [pollAux, he]
      · by_cases ht : (pollIntervalOrPropagateError (fetch page).response
            (fetch page).err now).2.1
        · simp [pollAux, he, ht]
        · by_cases hc : isCachedResponse (fetch page).response.response
          · simp [pollAux, he, ht, hc]
          · by_cases hz : (fetch page).response.nextPage = 0
            · simp [pollAux, he, ht, hc, hz]
            · have := ih ((fetch page).response.nextPage)
                (acc ++ (fetch page).batch)
                ((pollIntervalOrPropagateError (fetch page).response
                  (fetch page).err now).1) (calls + 1)
              simp only [pollAux, he, ht, hc, hz]
              simp only [Bool.false_eq_true, if_false, if_neg hz]
              omega

/-- In the cache-aware loop, the returned error is non-`none` exactly
when the loop exited through the fatal branch. -/
lemma pollAux_err_iff_fatal_cached (fetch : Nat → FetchResult) (now : Int) :
    ∀ (fuel page : Nat) (acc : List Event) (pi0 : Int) (calls : Nat),
      ((pollAux fetch now fuel page acc pi0 calls).err.isSome = true ↔
        (pollAux fetch now fuel page acc pi0 calls).cause = ExitCause.fatal) := by
  intro fuel
  induction fuel with
  | zero => intro page acc pi0 calls; simp [pollAux]
  | succ f ih =>
      intro page acc pi0 calls
      by_cases he : ((pollIntervalOrPropagateError (fetch page).response
          (fetch page).err now).2.2).isSome
      · simp [pollAux, he]
      · by_cases ht : (pollIntervalOrPropagateError (fetch page).response
            (fetch page).err now).2.1
        · simp [pollAux, he, ht]
        · by_cases hc : isCachedResponse (fetch page).response.response
          · simp [pollAux, he, ht, hc]
          · by_cases hz : (fetch page).response.nextPage = 0
            · simp [pollAux, he, ht, hc, hz]
            · simp only [pollAux, he, ht, hc, hz]
              simp only [Bool.false_eq_true, if_false, if_neg hz]
              exact ih _ _ _ _

/-- The cache-aware loop exits through one of its five branches. -/
lemma pollAux_cause_cases_cached (fetch : Nat → FetchResult) (now : Int) :
    ∀ (fuel page : Nat) (acc : List Event) (pi0 : Int) (calls : Nat),
      (pollAux fetch now fuel page acc pi0 calls).cause = ExitCause.sentinel ∨
      (pollAux fetch now fuel page acc pi0 calls).cause = ExitCause.throttled ∨
      (pollAux fetch now fuel page acc pi0 calls).cause = ExitCause.cachedHit ∨
      (pollAux fetch now fuel page acc pi0 calls).cause = ExitCause.fatal ∨
      (pollAux fetch now fuel page acc pi0 calls).cause = ExitCause.ceiling := by
  intro fuel
  induction fuel with
  | zero => intro page acc pi0 calls; simp [pollAux]
  | succ f ih =>
      intro page acc pi0 calls
      by_cases he : ((pollIntervalOrPropagateError (fetch page).response
          (fetch page).err now).2.2).isSome
      · simp [pollAux, he]
      · by_cases ht : (pollIntervalOrPropagateError (fetch page).response
            (fetch page).err now).2.1
        · simp [pollAux, he, ht]
        · by_cases hc : isCachedResponse (fetch page).response.response
          · simp [pollAux, he, ht, hc]
          · by_cases hz : (fetch page).response.nextPage = 0
            · simp [pollAux, he, ht, hc, hz]
            · simp only [pollAux, he, ht, hc, hz]
              simp only [Bool.false_eq_true, if_false, if_neg hz]
              exact ih _ _ _ _

end Cached

/-!
## The claims
-/

/-- C1: for a feed producing pages `P1..Pk` chained by next cursor with a
terminal sentinel (`nextPage = 0`) and `k` at most the page ceiling, one
`poll()` call returns the concatenation of all pages' events in page
order and intra-page source order, issues exactly `k` fetch calls and
returns no error.  First conjunct: the plain variant; second conjunct:
the cache-aware variant, when the `k` pages are served fresh. -/
theorem C1_poll_concatenates_pages (fetch : Nat → FetchResult) (now : Int)
    (k : Nat) (hk1 : 1 ≤ k) (hk : k ≤ maximumEventsPages)
    (hok : ∀ j, j < k → (fetch (chainFrom fetch 1 j)).err = none)
    (hnext : ∀ j, j < k - 1 → (fetch (chainFrom fetch 1 j)).response.nextPage ≠ 0)
    (hsent : (fetch (chainFrom fetch 1 (k - 1))).response.nextPage = 0) :
    ((Plain.poll fetch now).events = batchesFrom fetch 1 k ∧
     (Plain.poll fetch now).fetchCalls = k ∧
     (Plain.poll fetch now).err = none) ∧
    ((∀ j, j < k →
        isCachedResponse (fetch (chainFrom fetch 1 j)).response.response = false) →
      (Cached.poll fetch now).events = batchesFrom fetch 1 k ∧
      (Cached.poll fetch now).fetchCalls = k ∧
      (Cached.poll fetch now).err = none) := by
  obtain ⟨m, rfl⟩ : ∃ m, k = m + 1 := ⟨k - 1, by omega⟩
  have h10 : maximumEventsPages = 10 := rfl
  have hokm : (fetch (chainFrom fetch 1 m)).err = none := hok m (by omega)
  have hz : (fetch (chainFrom fetch 1 m)).response.nextPage = 0 := by
    simpa using hsent
  have hfuel : maximumEventsPages - m = (maximumEventsPages - m - 1) + 1 := by
    omega
  constructor
  · have hsteps := Plain.pollAux_steps fetch now m maximumEventsPages 1 [] (-1) 0
      (by omega)
      (fun j hj => hok j (by omega))
      (fun j hj => hnext j (by omega))
    rw [Plain.poll, hsteps, hfuel]
    simp [Plain.pollAux, Plain.pollIntervalOrPropagateError, hokm, hz,
          batchesFrom_succ_last]
  · intro hfresh
    have hsteps := Cached.pollAux_steps_cached fetch now m maximumEventsPages 1 [] (-1) 0
      (by omega)
      (fun j hj => hok j (by omega))
      (fun j hj => hfresh j (by omega))
      (fun j hj => hnext j (by omega))
    rw [Cached.poll, hsteps, hfuel]
    have hcm : isCachedResponse (fetch (chainFrom fetch 1 m)).response.response = false :=
      hfresh m (by omega)
    simp [Cached.pollAux, Cached.pollIntervalOrPropagateError, hokm, hcm, hz,
          batchesFrom_succ_last]

/-- C1 witness: with the three-page oracle `exFetchChain`, `poll`
returns pages 1–3 concatenated, three fetch calls and no error. -/
theorem C1_poll_concatenates_pages_witness :
    (Plain.poll exFetchChain 0).events = batchesFrom exFetchChain 1 3 ∧
    (Plain.poll exFetchChain 0).fetchCalls = 3 ∧
    (Plain.poll exFetchChain 0).err = none :=
  (C1_poll_concatenates_pages exFetchChain 0 3 (by decide) (by decide)
    (by decide) (by decide) (by decide)).1

/-- C2 counterexample: when the first fetch is rate limited with a reset
time already in the past (reset 0 at `now = timeSecond`), `poll` returns
the negative interval `reset − now`, not `max 0 (reset − now)` as the
claim states. -/
theorem C2_rateLimited_counterexample :
    (exFetchRateLimited (chainFrom exFetchRateLimited 1 0)).err =
      some (GHError.rateLimitError { reset := 0 }) ∧
    (Plain.poll exFetchRateLimited timeSecond).err = none ∧
    (Plain.poll exFetchRateLimited timeSecond).poll_interval = 0 - timeSecond ∧
    ¬(Plain.poll exFetchRateLimited timeSecond).poll_interval =
        max 0 (0 - timeSecond) := by
  refine ⟨rfl, ?_, ?_, ?_⟩
  · rfl
  · rfl
  · intro h
    have h2 : max (0 : Int) (0 - timeSecond) = 0 := by decide
    rw [h2] at h
    exact absurd h (by decide)

/-- C2 amended: if fetches `1..i−1` succeed with non-sentinel cursors and
fetch `i` (`i ≤` ceiling) returns a rate-limit error with reset time `T`,
then `poll()` returns the concatenation of pages `1..i−1` only, the poll
interval `T − now` (negative when the reset time has passed — the code
does not clamp it at 0), and no error. -/
theorem C2_rateLimited_amended (fetch : Nat → FetchResult) (now : Int)
    (i : Nat) (T : Int) (hi1 : 1 ≤ i) (hi : i ≤ maximumEventsPages)
    (hok : ∀ j, j < i - 1 → (fetch (chainFrom fetch 1 j)).err = none)
    (hnext : ∀ j, j < i - 1 → (fetch (chainFrom fetch 1 j)).response.nextPage ≠ 0)
    (hrl : (fetch (chainFrom fetch 1 (i - 1))).err =
      some (GHError.rateLimitError { reset := T })) :
    (Plain.poll fetch now).events = batchesFrom fetch 1 (i - 1) ∧
    (Plain.poll fetch now).poll_interval = T - now ∧
    (Plain.poll fetch now).err = none ∧
    (Plain.poll fetch now).fetchCalls = i := by
  have h10 : maximumEventsPages = 10 := rfl
  have hsteps := Plain.pollAux_steps fetch now (i - 1) maximumEventsPages 1 [] (-1) 0
    (by omega) (fun j hj => hok j hj) (fun j hj => hnext j hj)
  have hfuel : maximumEventsPages - (i - 1) = (maximumEventsPages - i) + 1 := by
    omega
  rw [Plain.poll, hsteps, hfuel]
  simp [Plain.pollAux, Plain.pollIntervalOrPropagateError, hrl]
  omega

/-- C2 amended witness: the always-rate-limited oracle at `i = 1`,
`T = 0`, `now = timeSecond`. -/
theorem C2_rateLimited_amended_witness :
    (Plain.poll exFetchRateLimited timeSecond).events =
      batchesFrom exFetchRateLimited 1 0 ∧
    (Plain.poll exFetchRateLimited timeSecond).poll_interval = 0 - timeSecond ∧
    (Plain.poll exFetchRateLimited timeSecond).err = none ∧
    (Plain.poll exFetchRateLimited timeSecond).fetchCalls = 1 :=
  C2_rateLimited_amended exFetchRateLimited timeSecond 1 0 (by decide)
    (by decide) (by decide) (by decide) (by decide)

/-- C3: in every cycle the number of page fetches never exceeds
`maximumEventsPages` (10), in both variants; and for a feed whose cursor
chain never reaches the sentinel within 10 fetches, `poll()` stops after
the 10th fetch and returns the accumulated batch of all 10 pages with no
error (plain variant; the analogous cache-aware statement holds when the
pages are also served fresh). -/
theorem C3_page_ceiling :
    maximumEventsPages = 10 ∧
    (∀ (fetch : Nat → FetchResult) (now : Int),
      (Plain.poll fetch now).fetchCalls ≤ maximumEventsPages) ∧
    (∀ (fetch : Nat → FetchResult) (now : Int),
      (Cached.poll fetch now).fetchCalls ≤ maximumEventsPages) ∧
    (∀ (fetch : Nat → FetchResult) (now : Int),
      (∀ j, j < maximumEventsPages → (fetch (chainFrom fetch 1 j)).err = none) →
      (∀ j, j < maximumEventsPages →
        (fetch (chainFrom fetch 1 j)).response.nextPage ≠ 0) →
      (Plain.poll fetch now).fetchCalls = maximumEventsPages ∧
      (Plain.poll fetch now).events = batchesFrom fetch 1 maximumEventsPages ∧
      (Plain.poll fetch now).err = none ∧
      (Plain.poll fetch now).cause = ExitCause.ceiling) := by
  refine ⟨rfl, ?_, ?_, ?_⟩
  · intro fetch now
    simpa using Plain.pollAux_calls_le fetch now maximumEventsPages 1 [] (-1) 0
  · intro fetch now
    simpa using Cached.pollAux_calls_le_cached fetch now maximumEventsPages 1 [] (-1) 0
  · intro fetch now hok hnext
    have hsteps := Plain.pollAux_steps fetch now maximumEventsPages
      maximumEventsPages 1 [] (-1) 0 (le_refl _) hok hnext
    rw [Plain.poll, hsteps, Nat.sub_self]
    simp [Plain.pollAux]

/-- C3 witness: the endless-chain oracle stops after exactly 10 fetches
with the 10 pages accumulated. -/
theorem C3_page_ceiling_witness :
    (Plain.poll exFetchEndless 0).fetchCalls = maximumEventsPages ∧
    (Plain.poll exFetchEndless 0).events = batchesFrom exFetchEndless 1 maximumEventsPages ∧
    (Plain.poll exFetchEndless 0).err = none ∧
    (Plain.poll exFetchEndless 0).cause = ExitCause.ceiling :=
  C3_page_ceiling.2.2.2 exFetchEndless 0 (by decide) (by decide)

/-- C4: in the cache-aware variant, if fetches `1..i−1` succeed fresh
with non-sentinel cursors and fetch `i` succeeds but is flagged as served
from the cache, `poll()` stops at fetch `i`, returns the events of pages
`1..i−1` unchanged, no error, and the parsed-or-default delay taken from
the cached response. -/
theorem C4_cached_response_stops (fetch : Nat → FetchResult) (now : Int)
    (i : Nat) (hi1 : 1 ≤ i) (hi : i ≤ maximumEventsPages)
    (hok : ∀ j, j < i - 1 → (fetch (chainFrom fetch 1 j)).err = none)
    (hfresh : ∀ j, j < i - 1 →
      isCachedResponse (fetch (chainFrom fetch 1 j)).response.response = false)
    (hnext : ∀ j, j < i - 1 → (fetch (chainFrom fetch 1 j)).response.nextPage ≠ 0)
    (hoki : (fetch (chainFrom fetch 1 (i - 1))).err = none)
    (hci : isCachedResponse (fetch (chainFrom fetch 1 (i - 1))).response.response = true) :
    (Cached.poll fetch now).events = batchesFrom fetch 1 (i - 1) ∧
    (Cached.poll fetch now).err = none ∧
    (Cached.poll fetch now).poll_interval =
      pollIntervalFromResponse (fetch (chainFrom fetch 1 (i - 1))).response.response ∧
    (Cached.poll fetch now).fetchCalls = i ∧
    (Cached.poll fetch now).cause = ExitCause.cachedHit := by
  have h10 : maximumEventsPages = 10 := rfl
  have hsteps := Cached.pollAux_steps_cached fetch now (i - 1) maximumEventsPages 1 [] (-1) 0
    (by omega) (fun j hj => hok j hj) (fun j hj => hfresh j hj)
    (fun j hj => hnext j hj)
  have hfuel : maximumEventsPages - (i - 1) = (maximumEventsPages - i) + 1 := by
    omega
  rw [Cached.poll, hsteps, hfuel]
  simp [Cached.pollAux, Cached.pollIntervalOrPropagateError, hoki, hci]
  omega

/-- C4 witness: page 1 fresh, page 2 cached with a "45" delay hint. -/
theorem C4_cached_response_stops_witness :
    (Cached.poll exFetchCachedAt2 0).events = batchesFrom exFetchCachedAt2 1 1 ∧
    (Cached.poll exFetchCachedAt2 0).err = none ∧
    (Cached.poll exFetchCachedAt2 0).poll_interval =
      pollIntervalFromResponse (exFetchCachedAt2 (chainFrom exFetchCachedAt2 1 1)).response.response ∧
    (Cached.poll exFetchCachedAt2 0).fetchCalls = 2 ∧
    (Cached.poll exFetchCachedAt2 0).cause = ExitCause.cachedHit :=
  C4_cached_response_stops exFetchCachedAt2 0 2 (by decide) (by decide)
    (by decide) (by decide) (by decide) (by decide) (by decide)

/-- C5: header "45" parses to a 45-second delay; an absent header or a
non-numeric one such as "abc" falls back to the 60-second default; and in
general the computed delay is exactly the parsed header value or exactly
the default — never amplified or jittered. -/
theorem C5_poll_delay_parsing :
    defaultPollSeconds = 60 ∧
    pollIntervalFromResponse
      { pollIntervalHeaderValue := some "45", fromCacheHeaderPresent := false } =
      45 * timeSecond ∧
    pollIntervalFromResponse
      { pollIntervalHeaderValue := none, fromCacheHeaderPresent := false } =
      defaultPollSeconds * timeSecond ∧
    pollIntervalFromResponse
      { pollIntervalHeaderValue := some "abc", fromCacheHeaderPresent := false } =
      defaultPollSeconds * timeSecond ∧
    ∀ r : HTTPResponse,
      (∃ n : Int, atoi (headerGet r.pollIntervalHeaderValue) = some n ∧
        pollIntervalFromResponse r = n * timeSecond) ∨
      pollIntervalFromResponse r = defaultPollSeconds * timeSecond := by
  refine ⟨rfl, by decide, by decide, by decide, ?_⟩
  intro r
  by_cases h0 : headerGet r.pollIntervalHeaderValue = ""
  · right
    simp [pollIntervalFromResponse, h0]
  · cases ha : atoi (headerGet r.pollIntervalHeaderValue) with
    | none =>
        right
        simp [pollIntervalFromResponse, h0, ha]
    | some n =>
        exact Or.inl ⟨n, rfl, by simp [pollIntervalFromResponse, h0, ha]⟩

/-- C6 counterexample: a feed whose cursor chain never reaches the
sentinel makes the cycle terminate by page-ceiling exhaustion, which is
none of the three causes the claim allows. -/
theorem C6_exit_cause_counterexample :
    (Plain.poll exFetchEndless 0).cause = ExitCause.ceiling ∧
    ¬((Plain.poll exFetchEndless 0).cause = ExitCause.sentinel ∨
      (Plain.poll exFetchEndless 0).cause = ExitCause.throttled ∨
      (Plain.poll exFetchEndless 0).cause = ExitCause.cachedHit ∨
      (Plain.poll exFetchEndless 0).cause = ExitCause.fatal) := by
  decide

/-- C6 amended: every poll cycle terminates via exactly one of
{sentinel reached, stopEarly (throttle, or cache hit in the cache-aware
variant), fatal error, page-ceiling exhaustion}; moreover the fatal cause
occurs exactly when `poll` returns a non-nil error. -/
theorem C6_exit_causes_amended (fetch : Nat → FetchResult) (now : Int) :
    ((Plain.poll fetch now).cause = ExitCause.sentinel ∨
     (Plain.poll fetch now).cause = ExitCause.throttled ∨
     (Plain.poll fetch now).cause = ExitCause.fatal ∨
     (Plain.poll fetch now).cause = ExitCause.ceiling) ∧
    (¬((Plain.poll fetch now).cause = ExitCause.sentinel ∧
       (Plain.poll fetch now).cause = ExitCause.throttled) ∧
     ¬((Plain.poll fetch now).cause = ExitCause.sentinel ∧
       (Plain.poll fetch now).cause = ExitCause.fatal) ∧
     ¬((Plain.poll fetch now).cause = ExitCause.sentinel ∧
       (Plain.poll fetch now).cause = ExitCause.ceiling) ∧
     ¬((Plain.poll fetch now).cause = ExitCause.throttled ∧
       (Plain.poll fetch now).cause = ExitCause.fatal) ∧
     ¬((Plain.poll fetch now).cause = ExitCause.throttled ∧
       (Plain.poll fetch now).cause = ExitCause.ceiling) ∧
     ¬((Plain.poll fetch now).cause = ExitCause.fatal ∧
       (Plain.poll fetch now).cause = ExitCause.ceiling)) ∧
    ((Plain.poll fetch now).err.isSome = true ↔
      (Plain.poll fetch now).cause = ExitCause.fatal) ∧
    ((Cached.poll fetch now).cause = ExitCause.sentinel ∨
     (Cached.poll fetch now).cause = ExitCause.throttled ∨
     (Cached.poll fetch now).cause = ExitCause.cachedHit ∨
     (Cached.poll fetch now).cause = ExitCause.fatal ∨
     (Cached.poll fetch now).cause = ExitCause.ceiling) ∧
    ((Cached.poll fetch now).err.isSome = true ↔
      (Cached.poll fetch now).cause = ExitCause.fatal) := by
  refine ⟨Plain.pollAux_cause_cases fetch now maximumEventsPages 1 [] (-1) 0,
    ⟨?_, ?_, ?_, ?_, ?_, ?_⟩,
    Plain.pollAux_err_iff_fatal fetch now maximumEventsPages 1 [] (-1) 0,
    Cached.pollAux_cause_cases_cached fetch now maximumEventsPages 1 [] (-1) 0,
    Cached.pollAux_err_iff_fatal_cached fetch now maximumEventsPages 1 [] (-1) 0⟩ <;>
  · rintro ⟨h1, h2⟩
    rw [h1] at h2
    exact absurd h2 (by decide)

/-- C7: on every termination path of `Serve` — fatal fetch error as well
as cancellation — the output queue is closed, exactly once per `Serve`
invocation; while the loop still runs, it has not been closed. -/
theorem C7_queue_closed_once (pollAt : Nat → List Event × Int × Option GHError)
    (ctxDone : Nat → Bool) :
    ∀ (fuel cycle : Nat) (emitted : List (List Event)),
      (Serve pollAt ctxDone fuel cycle emitted).closeCount =
        if (Serve pollAt ctxDone fuel cycle emitted).outcome.isSome then 1 else 0 := by
  intro fuel
  induction fuel with
  | zero => intro cycle emitted; simp [Serve]
  | succ f ih =>
      intro cycle emitted
      rcases hp : pollAt cycle with ⟨events, pi, err⟩
      cases err with
      | some e => simp [Serve, hp]
      | none =>
          by_cases hc : ctxDone cycle
          · simp [Serve, hp, hc]
          · simp only [Serve, hp, hc]
            simp only [Bool.false_eq_true, if_false]
            exact ih _ _

/-- Batches sent on the queue by `Serve` all satisfy any property that
every `poll` result and every previously emitted batch satisfy. -/
lemma Serve_emitted_sound (pollAt : Nat → List Event × Int × Option GHError)
    (ctxDone : Nat → Bool) (P : List Event → Prop)
    (hp : ∀ n, P (pollAt n).1) :
    ∀ (fuel cycle : Nat) (emitted : List (List Event)),
      (∀ b ∈ emitted, P b) →
      ∀ b ∈ (Serve pollAt ctxDone fuel cycle emitted).emitted, P b := by
  intro fuel
  induction fuel with
  | zero => intro cycle emitted hemit; simpa [Serve] using hemit
  | succ f ih =>
      intro cycle emitted hemit
      rcases hp2 : pollAt cycle with ⟨events, pi, err⟩
      have hev : P events := by
        have := hp cycle
        rw [hp2] at this
        exact this
      cases err with
      | some e =>
          intro b hb
          simp only [Serve, hp2] at hb
          exact hemit b hb
      | none =>
          by_cases hc : ctxDone cycle
          · intro b hb
            simp only [Serve, hp2, hc, if_true] at hb
            rcases List.mem_append.mp hb with h | h
            · exact hemit b h
            · rw [List.mem_singleton.mp h]
              exact hev
          · intro b hb
            simp only [Serve, hp2, hc] at hb
            simp only [Bool.false_eq_true, if_false] at hb
            refine ih _ _ ?_ b hb
            intro b' hb'
            rcases List.mem_append.mp hb' with h | h
            · exact hemit b' h
            · rw [List.mem_singleton.mp h]
              exact hev

/-- C9: under the precondition that every fetched page holds at most
`maximumEventsPerPage` (30) events, every batch returned by `poll()` —
and hence every batch `Serve` emits on the output queue — holds at most
`maximumEventsPerPoll` (300) events. -/
theorem C9_events_bounded :
    maximumEventsPerPoll = 300 ∧
    (∀ (fetch : Nat → FetchResult) (now : Int),
      (∀ p, (fetch p).batch.length ≤ maximumEventsPerPage) →
      (Plain.poll fetch now).events.length ≤ maximumEventsPerPoll) ∧
    (∀ (fetchAt : Nat → Nat → FetchResult) (nowAt : Nat → Int)
       (ctxDone : Nat → Bool) (fuel : Nat),
      (∀ n p, (fetchAt n p).batch.length ≤ maximumEventsPerPage) →
      ∀ b ∈ (Serve (fun n =>
          ((Plain.poll (fetchAt n) (nowAt n)).events,
           (Plain.poll (fetchAt n) (nowAt n)).poll_interval,
           (Plain.poll (fetchAt n) (nowAt n)).err)) ctxDone fuel 0 []).emitted,
        b.length ≤ maximumEventsPerPoll) := by
  have hpoll : ∀ (fetch : Nat → FetchResult) (now : Int),
      (∀ p, (fetch p).batch.length ≤ maximumEventsPerPage) →
      (Plain.poll fetch now).events.length ≤ maximumEventsPerPoll := by
    intro fetch now hpage
    have h := Plain.pollAux_length_le fetch now hpage maximumEventsPages 1 [] (-1) 0
    simpa [maximumEventsPerPoll, maximumEventsPerPage, maximumEventsPages] using h
  refine ⟨rfl, hpoll, ?_⟩
  intro fetchAt nowAt ctxDone fuel hpage
  exact Serve_emitted_sound _ ctxDone (fun b => b.length ≤ maximumEventsPerPoll)
    (fun n => hpoll (fetchAt n) (nowAt n) (hpage n)) fuel 0 [] (by simp)

/-- C9 witness: the endless-chain oracle serves one event per page, so a
poll's batch stays within the 300-event bound. -/
theorem C9_events_bounded_witness :
    (Plain.poll exFetchEndless 0).events.length ≤ maximumEventsPerPoll :=
  C9_events_bounded.2.1 exFetchEndless 0
    (fun p => by simp [exFetchEndless, maximumEventsPerPage])

/-- C10: a parsable negative poll-delay header (such as "-5") is taken
as-is — `pollIntervalFromResponse` returns the corresponding negative
duration rather than the 60-second default, so the next sleep is not
positive. -/
theorem C10_negative_header_honoured (r : HTTPResponse) (n : Int)
    (hn : atoi (headerGet r.pollIntervalHeaderValue) = some n) (hneg : n < 0) :
    pollIntervalFromResponse r = n * timeSecond ∧
    pollIntervalFromResponse r < 0 := by
  have h0 : ¬headerGet r.pollIntervalHeaderValue = "" := by
    intro h
    rw [h] at hn
    have hnone : atoi "" = none := rfl
    rw [hnone] at hn
    exact Option.noConfusion hn
  have hval : pollIntervalFromResponse r = n * timeSecond := by
    simp [pollIntervalFromResponse, h0, hn]
  refine ⟨hval, ?_⟩
  rw [hval]
  have hpos : (0 : Int) < timeSecond := by decide
  exact mul_neg_of_neg_of_pos hneg hpos

/-- C5 witness: the general no-amplification disjunction instantiated at
the "-5" example response. -/
theorem C5_poll_delay_parsing_witness :
    (∃ n : Int, atoi (headerGet respNeg.pollIntervalHeaderValue) = some n ∧
      pollIntervalFromResponse respNeg = n * timeSecond) ∨
    pollIntervalFromResponse respNeg = defaultPollSeconds * timeSecond :=
  C5_poll_delay_parsing.2.2.2.2 respNeg

/-- C6 amended witness: the four-way cause disjunction instantiated at
the always-rate-limited oracle. -/
theorem C6_exit_causes_amended_witness :
    (Plain.poll exFetchRateLimited 0).cause = ExitCause.sentinel ∨
    (Plain.poll exFetchRateLimited 0).cause = ExitCause.throttled ∨
    (Plain.poll exFetchRateLimited 0).cause = ExitCause.fatal ∨
    (Plain.poll exFetchRateLimited 0).cause = ExitCause.ceiling :=
  (C6_exit_causes_amended exFetchRateLimited 0).1

/-- C7 witness: a run that hits a fatal poll error closes the queue
exactly once. -/
theorem C7_queue_closed_once_witness :
    (Serve (fun _ => ([], 0, some (GHError.other 0))) (fun _ => false) 1 0 []).closeCount =
      if (Serve (fun _ => ([], 0, some (GHError.other 0)))
            (fun _ => false) 1 0 []).outcome.isSome then 1 else 0 :=
  C7_queue_closed_once (fun _ => ([], 0, some (GHError.other 0))) (fun _ => false) 1 0 []

/-- C10 witness: the "-5" header yields a −5 second interval. -/
theorem C10_negative_header_honoured_witness :
    pollIntervalFromResponse respNeg = -5 * timeSecond ∧
    pollIntervalFromResponse respNeg < 0 :=
  C10_negative_header_honoured respNeg (-5) (by decide) (by decide)
